import Mathlib

/-!
Verification development for the StarlinkScan RTT collection engine.

The definitions below are a shallow embedding of the Python sources:
  * `src/satellite-detector/src/collection/base_collector.py` (`BaseCollector.run_probe`)
  * `src/satellite-detector/src/collection/icmp_collector.py` (`IcmpCollector.probe`)
  * `src/src/collection/dns_collector.py` (`DnsCollector.probe`)
  * `src/src/collection/rdns_collector.py` (`RdnsCollector.probe`)
  * `src/src/collection/traceroute_collector.py` (`TracerouteCollector.probe`, `_parse_output`)
  * `src/main.py` (`io_writer_process`, `io_writer_process_mass`, `_parse_mass_targets`,
    the scheduler `job_defaults`)

Python floats are embedded as rationals, wall-clock instants as a natural-number
clock threaded explicitly, network and subprocess effects as explicit environment
values, and exceptions as `Except`.
-/

set_option maxRecDepth 4000

/-- One parsed traceroute hop entry, as built by `TracerouteCollector._parse_output`. -/
structure Hop where
  hop : Nat
  ip : Option String
  rtts_ms : List Rat
  avg_ms : Option Rat
deriving DecidableEq, Repr

/-- A value occurring in a ProbeResult metadata mapping. -/
inductive MetaValue where
  | str (v : String)
  | rat (v : Rat)
  | int (v : Int)
  | nullV
  | boolV (v : Bool)
  | strList (v : List String)
  | hops (v : List Hop)
deriving DecidableEq, Repr

/-- The result dict built by `BaseCollector.run_probe`.  The `timestamp` field is
the value of the explicit wall clock at the instant `datetime.utcnow()` is called. -/
structure ProbeResult where
  timestamp : Nat
  target_ip : String
  probe_type : String
  rtt_ms : Option Rat
  status : String
  metadata : List (String × MetaValue)
deriving DecidableEq, Repr

/-- The `(rtt_ms, status, metadata)` tuple returned by every collector `probe()`. -/
abbrev ProbeOutcome := Option Rat × String × List (String × MetaValue)

/-- `BaseCollector.run_probe`.  `probeOutcome` is the behaviour of `self.probe()`
(`Except.error msg` models `probe()` raising an exception whose text is `msg`);
`elapsed` is the wall-clock time consumed by the probe body, so `datetime.utcnow()`
reads `t0 + elapsed`.  The function returns the single result dict it builds
together with everything it enqueues on the output queue; its totality embeds the
fact that no exception escapes `run_probe`. -/
def run_probe (target_ip probe_type : String) (queuePresent : Bool)
    (probeOutcome : Except String ProbeOutcome) (elapsed t0 : Nat) :
    ProbeResult × List ProbeResult :=
  let t1 := t0 + elapsed
  match probeOutcome with
  | .ok (rtt_ms, status, metadata) =>
      let result : ProbeResult :=
        { timestamp := t1, target_ip := target_ip, probe_type := probe_type,
          rtt_ms := rtt_ms, status := status, metadata := metadata }
      (result, if queuePresent then [result] else [])
  | .error msg =>
      let error_result : ProbeResult :=
        { timestamp := t1, target_ip := target_ip, probe_type := probe_type,
          rtt_ms := none, status := "error",
          metadata := [("error_message", .str msg)] }
      (error_result, if queuePresent then [error_result] else [])

/-- Behaviour of the `ping3.ping` call observed by `IcmpCollector.probe`. -/
inductive PingOutcome where
  | unreachable
  | noReply
  | measured (v : Rat)
deriving DecidableEq

/-- Environment of one `IcmpCollector.probe` invocation. -/
inductive IcmpEnv where
  | ping (r : PingOutcome)
  | permissionDenied (msg : String)
  | exc (msg : String)
deriving DecidableEq

/-- `IcmpCollector.probe`: `False` from ping3 is Destination Unreachable, `None`
is a timeout, a number is a success; `PermissionError` is re-raised, every other
exception is converted to an error outcome in place. -/
def icmpProbe (env : IcmpEnv) : Except String ProbeOutcome :=
  match env with
  | .ping .unreachable => .ok (none, "error", [("error_message", .str "Destination Unreachable")])
  | .ping .noReply => .ok (none, "timeout", [])
  | .ping (.measured v) => .ok (some v, "success", [])
  | .permissionDenied msg => .error msg
  | .exc msg => .ok (none, "error", [("error_message", .str msg)])

/-- Environment of one `DnsCollector.probe` invocation; `startT`/`endT` are the
`time.perf_counter()` readings around `dns.query.udp`. -/
inductive DnsEnv where
  | reply (startT endT : Rat) (truthy : Bool)
  | timeoutE
  | exc (msg : String)
deriving DecidableEq

/-- `DnsCollector.probe`. -/
def dnsProbe (domain qtype : String) (env : DnsEnv) : ProbeOutcome :=
  let metadata : List (String × MetaValue) :=
    [("query_domain", .str domain), ("query_type", .str qtype)]
  match env with
  | .reply startT endT truthy =>
      if truthy then ((some ((endT - startT) * 1000)), "success", metadata)
      else (none, "error", [("error_message", .str "No response")])
  | .timeoutE => (none, "timeout", metadata)
  | .exc msg => (none, "error", [("error_message", .str msg)])

/-- Environment of one `RdnsCollector.probe` invocation; in the `answer` case
`ptrs` are the PTR names already rendered by `str(r.target).rstrip(".")`. -/
inductive RdnsEnv where
  | answer (startT endT : Rat) (ptrs : List String)
  | nxdomain
  | timeoutE
  | exc (msg : String)
deriving DecidableEq

/-- `RdnsCollector.probe`: the metadata dict starts as
`{"ptr_name": None, "query_time_ms": None}` and is updated per branch. -/
def rdnsProbe (env : RdnsEnv) : ProbeOutcome :=
  match env with
  | .answer startT endT ptrs =>
      (none, "success",
        [("ptr_name", .strList ptrs), ("query_time_ms", .rat ((endT - startT) * 1000))])
  | .nxdomain =>
      (none, "success", [("ptr_name", .strList []), ("query_time_ms", .nullV)])
  | .timeoutE =>
      (none, "timeout", [("ptr_name", .nullV), ("query_time_ms", .nullV)])
  | .exc msg => (none, "error", [("error_message", .str msg)])

example : (rdnsProbe .nxdomain).2.1 = "success" := by decide
example : (icmpProbe (.ping (.measured 3))).toOption.map (·.1) = some (some 3) := by decide

/-- Python whitespace, as matched by `str.strip` and `\s` on the ASCII output handled here. -/
def isPySpaceChar (c : Char) : Bool :=
  c == ' ' || c == '\t' || c == '\n' || c == '\r' || c == '\x0b' || c == '\x0c'

/-- `str.strip()` on a character list. -/
def pyStrip (l : List Char) : List Char :=
  ((l.dropWhile isPySpaceChar).reverse.dropWhile isPySpaceChar).reverse

/-- `int()` of a non-empty ASCII digit string. -/
def natOfDigits (ds : List Char) : Nat :=
  ds.foldl (fun n c => n * 10 + (c.toNat - '0'.toNat)) 0

/-- `str.splitlines()` restricted to the terminators occurring in traceroute
output (`\n`, `\r\n`, `\r`): no trailing empty line is produced. -/
def pySplitlines : List Char → List Char → List (List Char)
  | [], acc => if acc.isEmpty then [] else [acc.reverse]
  | '\r' :: '\n' :: rest, acc => acc.reverse :: pySplitlines rest []
  | '\n' :: rest, acc => acc.reverse :: pySplitlines rest []
  | '\r' :: rest, acc => acc.reverse :: pySplitlines rest []
  | c :: rest, acc => pySplitlines rest (c :: acc)

/-- `re.match(r"^(\d+)\s+(.*)$", line)`: a non-empty leading digit run followed by a
non-empty whitespace run; returns `int(group(1))` and `group(2)`. -/
def matchHopLine (line : List Char) : Option (Nat × List Char) :=
  let ds := line.takeWhile Char.isDigit
  if ds.isEmpty then none
  else
    let afterDigits := line.dropWhile Char.isDigit
    if (afterDigits.takeWhile isPySpaceChar).isEmpty then none
    else some (natOfDigits ds, afterDigits.dropWhile isPySpaceChar)

/-- Scanner for `re.findall(r"(\d+)\s*ms", s)`: each match is a maximal digit run,
optional whitespace, then the literal `ms`; scanning resumes after the consumed
`ms`, otherwise one character further.  `fuel` is a step budget: every step
strictly shrinks the list, so a budget of the list length is never exhausted. -/
def findMsMatchesAux : Nat → List Char → List Nat
  | 0, _ => []
  | _, [] => []
  | fuel + 1, c :: cs =>
    if c.isDigit then
      match ((c :: cs).dropWhile Char.isDigit).dropWhile isPySpaceChar with
      | 'm' :: 's' :: rest =>
          natOfDigits ((c :: cs).takeWhile Char.isDigit) :: findMsMatchesAux fuel rest
      | _ => findMsMatchesAux fuel cs
    else findMsMatchesAux fuel cs

/-- `re.findall(r"(\d+)\s*ms", s)`. -/
def findMsMatches (l : List Char) : List Nat :=
  findMsMatchesAux l.length l

/-- One attempted match of `re` pattern `(\d+\.\d+\.\d+\.\d+)` anchored at the head
of `l`; on success returns exactly the consumed characters. -/
def ipv4At (l : List Char) : Option (List Char) :=
  let d1 := l.takeWhile Char.isDigit
  if d1.isEmpty then none else
  match l.dropWhile Char.isDigit with
  | '.' :: r1 =>
    let d2 := r1.takeWhile Char.isDigit
    if d2.isEmpty then none else
    match r1.dropWhile Char.isDigit with
    | '.' :: r2 =>
      let d3 := r2.takeWhile Char.isDigit
      if d3.isEmpty then none else
      match r2.dropWhile Char.isDigit with
      | '.' :: r3 =>
        let d4 := r3.takeWhile Char.isDigit
        if d4.isEmpty then none
        else some (d1 ++ '.' :: (d2 ++ '.' :: (d3 ++ '.' :: d4)))
      | _ => none
    | _ => none
  | _ => none

/-- Scanner for `re.findall(r"(\d+\.\d+\.\d+\.\d+)", s)`: leftmost non-overlapping
matches, scanning resuming after each consumed match, otherwise one character
further.  `fuel` is a step budget never exhausted from `l.length`: an accepted
match consumes exactly its own characters and is non-empty. -/
def findIpv4MatchesAux : Nat → List Char → List String
  | 0, _ => []
  | _, [] => []
  | fuel + 1, c :: cs =>
    match ipv4At (c :: cs) with
    | some m => String.mk m :: findIpv4MatchesAux fuel ((c :: cs).drop m.length)
    | none => findIpv4MatchesAux fuel cs

/-- `re.findall(r"(\d+\.\d+\.\d+\.\d+)", s)`. -/
def findIpv4Matches (l : List Char) : List String :=
  findIpv4MatchesAux l.length l

/-- The character class `[0-9a-fA-F:]` of the IPv6 heuristic regex. -/
def isHexColonChar (c : Char) : Bool :=
  c.isDigit || ('a' ≤ c && c ≤ 'f') || ('A' ≤ c && c ≤ 'F') || c == ':'

/-- Scanner for `re.findall(r"([0-9a-fA-F:]{2,})", s)`: maximal runs of class
characters of length at least two; scanning resumes after a consumed run,
otherwise one character further.  `fuel` as in the other scanners. -/
def findHexRunsAux : Nat → List Char → List (List Char)
  | 0, _ => []
  | _, [] => []
  | fuel + 1, c :: cs =>
    if isHexColonChar c then
      let run := (c :: cs).takeWhile isHexColonChar
      if 2 ≤ run.length then
        run :: findHexRunsAux fuel ((c :: cs).dropWhile isHexColonChar)
      else findHexRunsAux fuel cs
    else findHexRunsAux fuel cs

/-- `re.findall(r"([0-9a-fA-F:]{2,})", s)`. -/
def findHexRuns (l : List Char) : List (List Char) :=
  findHexRunsAux l.length l

set_option linter.unusedVariables false in
/-- `TracerouteCollector._parse_output`: parses the textual hop list.  The
`system` argument is taken by the Python method but unused in its body. -/
def parse_output (text : String) (system : String) : List Hop :=
  (pySplitlines text.toList []).foldl (fun hops rawLine =>
    let line := pyStrip rawLine
    if line.isEmpty then hops else
    match matchHopLine line with
    | none => hops
    | some (hop_no, rest) =>
      let rtts : List Rat :=
        (findMsMatches (rest.filter (fun c => c != '<'))).map (fun n => (n : Rat))
      let ipv4s := findIpv4Matches rest
      let ipv6s := findHexRuns rest
      let ip : Option String :=
        if !ipv4s.isEmpty then ipv4s.getLast?
        else if !ipv6s.isEmpty then
          (if ipv6s.any (fun x => x.contains ':') then
            ((ipv6s.filter (fun x => x.contains ':')).getLast?).map String.mk
          else none)
        else none
      let avg_ms : Option Rat :=
        if rtts.isEmpty then none else some (rtts.sum / (rtts.length : Rat))
      hops ++ [{ hop := hop_no, ip := ip, rtts_ms := rtts, avg_ms := avg_ms }]) []

/-- Python `int()` on a float value: truncation toward zero. -/
def ratTrunc (q : Rat) : Int :=
  if 0 ≤ q then ⌊q⌋ else ⌈q⌉

/-- The overall subprocess deadline computed by `TracerouteCollector.probe`:
`max(10, int((timeout * max_hops * (queries + 1)) + 5))`. -/
def overall_timeout (timeout : Rat) (max_hops queries : Nat) : Int :=
  max 10 (ratTrunc (timeout * (max_hops : Rat) * ((queries : Rat) + 1) + 5))

/-- Behaviour of the `subprocess.run` call in `TracerouteCollector.probe`; the
function argument is the timeout actually passed to `subprocess.run`. -/
inductive TrEnv where
  | completed (stdoutS stderrS : String) (returncode : Int)
  | timedOut
  | cmdNotFound
  | exc (msg : String)

/-- The `output` selection in `TracerouteCollector.probe`:
`output = proc.stdout or ""` followed by
`if not output and proc.stderr: output = proc.stderr`. -/
def trOutput (so se : String) : String :=
  let output := if so = "" then "" else so
  if output = "" ∧ se ≠ "" then se else output

/-- `TracerouteCollector.probe`. -/
def tracerouteProbe (timeout : Rat) (max_hops queries : Nat) (system target_ip : String)
    (env : Int → TrEnv) : ProbeOutcome :=
  let ot := overall_timeout timeout max_hops queries
  match env ot with
  | .completed so se code =>
      let output := trOutput so se
      let hops := parse_output output system
      let destination_reached := hops.any (fun h => h.ip == some target_ip)
      let metadata : List (String × MetaValue) :=
        [("hops", .hops hops), ("destination_reached", .boolV destination_reached),
         ("exit_code", .int code)]
      (none, if hops.isEmpty then "error" else "success", metadata)
  | .timedOut => (none, "timeout", [])
  | .cmdNotFound => (none, "error", [("error_message", .str "traceroute/tracert not found")])
  | .exc msg => (none, "error", [("error_message", .str msg)])

unseal Rat.mul Rat.inv Rat.add Rat.sub in
example :
    parse_output " 1  192.168.0.1  0.345 ms  0.220 ms" "Linux" =
      [{ hop := 1, ip := some "192.168.0.1", rtts_ms := [345, 220],
         avg_ms := some (565 / 2) }] := by decide

example : parse_output "traceroute to 10.0.0.1" "Linux" = [] := by decide

/-- A durable file: `stable` holds the flushed lines, `buffer` the lines written
but not yet flushed to stable storage. -/
structure FileState where
  stable : List String
  buffer : List String
deriving DecidableEq, Repr

/-- `file.write(s)`. -/
def fwrite (s : String) (f : FileState) : FileState :=
  { f with buffer := f.buffer ++ [s] }

/-- `file.flush()`. -/
def fflush (f : FileState) : FileState :=
  { stable := f.stable ++ f.buffer, buffer := [] }

/-- JSON string escaping for the characters that can occur here. -/
def escapeJson (s : String) : String :=
  String.mk (s.toList.foldr (fun c acc =>
    if c = '"' ∨ c = '\\' then '\\' :: c :: acc else c :: acc) [])

def jsonStr (s : String) : String := "\"" ++ escapeJson s ++ "\""

/-- Rendering of an embedded float (a rational) inside a JSON record. -/
def ratJson (q : Rat) : String :=
  toString q.num ++ "/" ++ toString q.den

def optRatJson : Option Rat → String
  | none => "null"
  | some q => ratJson q

def hopJson (h : Hop) : String :=
  "\x7b\"hop\": " ++ toString h.hop ++ ", \"ip\": " ++
    (match h.ip with | none => "null" | some s => jsonStr s) ++
    ", \"rtts_ms\": [" ++ String.intercalate ", " (h.rtts_ms.map ratJson) ++
    "], \"avg_ms\": " ++ optRatJson h.avg_ms ++ "\x7d"

def MetaValue.toJson : MetaValue → String
  | .str v => jsonStr v
  | .rat v => ratJson v
  | .int v => toString v
  | .nullV => "null"
  | .boolV true => "true"
  | .boolV false => "false"
  | .strList v => "[" ++ String.intercalate ", " (v.map jsonStr) ++ "]"
  | .hops v => "[" ++ String.intercalate ", " (v.map hopJson) ++ "]"

def metadataJson (m : List (String × MetaValue)) : String :=
  "\x7b" ++
    String.intercalate ", " (m.map (fun kv => jsonStr kv.1 ++ ": " ++ kv.2.toJson)) ++
  "\x7d"

/-- `json.dumps(result)` for a result dict, the wall clock standing in for the
ISO timestamp string. -/
def json_dumps (r : ProbeResult) : String :=
  "\x7b\"timestamp\": " ++ toString r.timestamp ++
  ", \"target_ip\": " ++ jsonStr r.target_ip ++
  ", \"probe_type\": " ++ jsonStr r.probe_type ++
  ", \"rtt_ms\": " ++ optRatJson r.rtt_ms ++
  ", \"status\": " ++ jsonStr r.status ++
  ", \"metadata\": " ++ metadataJson r.metadata ++ "\x7d"

/-- The three files `io_writer_process` keeps open: `raw_data.jsonl`,
`meta/rdns.jsonl` and `meta/traceroute.jsonl`. -/
structure WriterFiles where
  f : FileState
  frdns : FileState
  ftr : FileState
deriving DecidableEq, Repr

/-- The body of the `io_writer_process` loop for one dequeued result dict:
`probe_type in ("rdns", "traceroute")` routes to the matching auxiliary log,
anything else to the primary log; one JSON line is written and the file is
flushed at once. -/
def writerStep (st : WriterFiles) (result : ProbeResult) : WriterFiles :=
  if result.probe_type = "rdns" then
    { st with frdns := fflush (fwrite (json_dumps result ++ "\n") st.frdns) }
  else if result.probe_type = "traceroute" then
    { st with ftr := fflush (fwrite (json_dumps result ++ "\n") st.ftr) }
  else
    { st with f := fflush (fwrite (json_dumps result ++ "\n") st.f) }

/-- The `io_writer_process` consumer loop over the queue contents; `none` is the
sentinel.  The boolean records whether the loop terminated through the sentinel
(`false` models the loop still blocked on `queue.get()` when the listed contents
run out). -/
def io_writer_process : List (Option ProbeResult) → WriterFiles → WriterFiles × Bool
  | [], st => (st, false)
  | none :: _, st => (st, true)
  | some r :: rest, st => io_writer_process rest (writerStep st r)

/-- The CSV header written by `io_writer_process_mass` into a newly created file. -/
def headerRow : String := "timestamp,target_ip,probe_type,rtt_ms,status\n"

def padZeros (n : Nat) (s : String) : String :=
  String.mk (List.replicate (n - s.length) '0') ++ s

/-- The rendering `f"\x7bfloat(rtt):.6f\x7d"`: six decimal places (half-up on the
embedded rationals). -/
def fmtRat6 (q : Rat) : String :=
  let scaled : Int := ⌊q * 1000000 + 1 / 2⌋
  let sign := if scaled < 0 then "-" else ""
  let n := scaled.natAbs
  sign ++ toString (n / 1000000) ++ "." ++ padZeros 6 (toString (n % 1000000))

/-- The CSV row `io_writer_process_mass` writes for one dequeued item:
`timestamp,target_ip,probe_type,rtt_ms,status`, the rtt field empty when the
value is absent, metadata omitted. -/
def massRow (item : ProbeResult) : String :=
  let rtt_str := match item.rtt_ms with
    | none => ""
    | some v => fmtRat6 v
  toString item.timestamp ++ "," ++ item.target_ip ++ "," ++ item.probe_type ++ "," ++
    rtt_str ++ "," ++ item.status ++ "\n"

/-- `_get_handle`: lazily open `<ip>.csv` on first sight.  The output directory
is freshly created for the run, so a newly opened file has size zero and receives
the header line, flushed, before any data row.  Handles live in an
insertion-ordered association list, mirroring the Python dict. -/
def _get_handle (ip : String) (handles : List (String × FileState)) :
    List (String × FileState) :=
  if (handles.lookup ip).isSome then handles
  else handles ++ [(ip, fflush (fwrite headerRow { stable := [], buffer := [] }))]

/-- The body of the `io_writer_process_mass` loop for one dequeued item: fetch or
create the per-target handle, append one CSV row, flush. -/
def massStep (handles : List (String × FileState)) (item : ProbeResult) :
    List (String × FileState) :=
  let ip := item.target_ip
  let handles := _get_handle ip handles
  handles.map (fun kv =>
    if kv.1 = ip then (kv.1, fflush (fwrite (massRow item) kv.2)) else kv)

/-- The `io_writer_process_mass` consumer loop; `none` is the sentinel. -/
def io_writer_process_mass :
    List (Option ProbeResult) → List (String × FileState) →
    List (String × FileState) × Bool
  | [], handles => (handles, false)
  | none :: _, handles => (handles, true)
  | some r :: rest, handles => io_writer_process_mass rest (massStep handles r)

/-- One line of the `_parse_mass_targets` loop.  The state is
`(current, ground, satellite)`; note that an unrecognized section header resets
`current` to `None`, and that the address dispatch falls back to the ground list
whenever `current` is neither `"ground"` nor `"satellite"`. -/
def massTargetsStep (st : Option (List Char) × List (List Char) × List (List Char))
    (raw : String) : Option (List Char) × List (List Char) × List (List Char) :=
  let (current, ground, satellite) := st
  let line := pyStrip raw.toList
  if line.isEmpty then (current, ground, satellite)
  else if line.head? = some '#' then (current, ground, satellite)
  else if line.head? = some '[' ∧ line.getLast? = some ']' then
    let sec := (pyStrip (line.drop 1).dropLast).map Char.toLower
    if sec = "ground".toList ∨ sec = "satellite".toList then (some sec, ground, satellite)
    else (none, ground, satellite)
  else
    if current = some ("ground".toList) then (current, ground ++ [line], satellite)
    else if current = some ("satellite".toList) then (current, ground, satellite ++ [line])
    else (current, ground ++ [line], satellite)

/-- `_parse_mass_targets`: parse the mass target file (given as its lines) into
the `(ground, satellite)` cohorts. -/
def _parse_mass_targets (lines : List String) : List (List Char) × List (List Char) :=
  let st := lines.foldl massTargetsStep (none, [], [])
  (st.2.1, st.2.2)

example :
    _parse_mass_targets ["[ground]", "1.1.1.1", "# c", "[satellite]", "203.0.113.1"] =
      (["1.1.1.1".toList], ["203.0.113.1".toList]) := by decide

/-- Reference written from the amended claim C10: an address line goes to the
satellite cohort exactly when the most recent recognized section header is
`[satellite]`; in every other case — before any header, under `[ground]`, and
also under an unrecognized header — it goes to the ground cohort. -/
def massTargetsAmendedStep (st : Bool × List (List Char) × List (List Char))
    (raw : String) : Bool × List (List Char) × List (List Char) :=
  let (inSat, ground, satellite) := st
  let line := pyStrip raw.toList
  if line.isEmpty then (inSat, ground, satellite)
  else if line.head? = some '#' then (inSat, ground, satellite)
  else if line.head? = some '[' ∧ line.getLast? = some ']' then
    let sec := (pyStrip (line.drop 1).dropLast).map Char.toLower
    if sec = "satellite".toList then (true, ground, satellite)
    else (false, ground, satellite)
  else
    if inSat then (inSat, ground, satellite ++ [line])
    else (inSat, ground ++ [line], satellite)

/-- The `(ground, satellite)` cohorts of the amended claim C10. -/
def massTargetsAmended (lines : List String) : List (List Char) × List (List Char) :=
  let st := lines.foldl massTargetsAmendedStep (false, [], [])
  (st.2.1, st.2.2)

/-- The APScheduler `job_defaults` dict configured identically in
`run_pair_workflow` and `run_mass_scan`. -/
structure JobDefaults where
  coalesce : Bool
  max_instances : Nat
  misfire_grace_time : Nat
deriving DecidableEq, Repr

def job_defaults : JobDefaults :=
  { coalesce := true, max_instances := 1, misfire_grace_time := 10 }

/-- A Job identity `(probe_kind, target)`, as encoded in the APScheduler job ids
`icmp_<ip>`, `dns_<ip>`, `rdns_<ip>`, `traceroute_<ip>`. -/
structure JobKey where
  probe_kind : String
  target : String
deriving DecidableEq, Repr

inductive SchedEvent where
  | trigger (j : JobKey)
  | finish (j : JobKey)
deriving DecidableEq, Repr

/-- Modelled from the spec: the dispatch discipline of the third-party
APScheduler library under the configured `max_instances` job default (the
library itself is not part of the sources).  The state is the multiset of
in-flight `run_probe` invocations; a trigger firing for a job that already has
`max_instances` running instances is skipped outright — nothing is queued — and
a finish retires one running instance. -/
def schedStep (maxInstances : Nat) (running : List JobKey) : SchedEvent → List JobKey
  | .trigger j => if maxInstances ≤ running.count j then running else j :: running
  | .finish j => running.erase j

/-- The in-flight multiset after a trace of scheduler events, starting idle. -/
def schedRun (maxInstances : Nat) (events : List SchedEvent) : List JobKey :=
  events.foldl (schedStep maxInstances) []

/-- The line `io_writer_process` appends for one dequeued result. -/
def recordLine (r : ProbeResult) : String := json_dumps r ++ "\n"

/-- Results routed to the primary log: probe type neither rdns nor traceroute. -/
def isPrimary (r : ProbeResult) : Bool :=
  !(r.probe_type == "rdns" || r.probe_type == "traceroute")

/-- Reference description written from claim C9: per dequeued result, if a file
for its target already exists the row is appended to it, otherwise a new file is
created holding the fixed header line followed by that first row; the row is
`massRow`, i.e. timestamp, target, probe kind, rtt (empty when absent) and
status, with metadata omitted. -/
def cohortWriterSpecStep (acc : List (String × List String)) (r : ProbeResult) :
    List (String × List String) :=
  if (acc.lookup r.target_ip).isSome then
    acc.map (fun kv => if kv.1 = r.target_ip then (kv.1, kv.2 ++ [massRow r]) else kv)
  else acc ++ [(r.target_ip, [headerRow, massRow r])]

/-- The per-target file contents claim C9 describes, for a result sequence. -/
def cohortWriterSpec (results : List ProbeResult) : List (String × List String) :=
  results.foldl cohortWriterSpecStep []

/-- Claim C1: whenever a collector `probe()` raises (the `Except.error msg`
behaviour, which is also what the ICMP collector produces by re-raising
`PermissionError`), `run_probe` builds exactly one result dict with status
`error`, `rtt_ms` `None` and `metadata.error_message` the exception text,
enqueues exactly that dict when a queue is present and nothing otherwise; being
a total function, `run_probe` propagates no exception to its caller. -/
theorem c1_run_probe_contains_probe_exceptions
    (target ptype msg : String) (qp : Bool) (elapsed t0 : Nat) :
    (run_probe target ptype qp (.error msg) elapsed t0).1.status = "error" ∧
    (run_probe target ptype qp (.error msg) elapsed t0).1.rtt_ms = none ∧
    (run_probe target ptype qp (.error msg) elapsed t0).1.metadata =
      [("error_message", .str msg)] ∧
    (run_probe target ptype qp (.error msg) elapsed t0).2 =
      (if qp then [(run_probe target ptype qp (.error msg) elapsed t0).1] else []) ∧
    (∀ pmsg, icmpProbe (.permissionDenied pmsg) = .error pmsg) := by
  refine ⟨rfl, rfl, rfl, rfl, fun pmsg => rfl⟩

/-- Claim C2: over every environment (the perf_counter readings being monotone
and the ping3 measurement non-negative, which is what those clocks deliver), a
result produced by `run_probe` from a collector outcome satisfies: status
`success` for the icmp and dns collectors implies `rtt_ms` present and
non-negative, and the rdns and traceroute collectors — on their normal path as
well as on the exception path — always carry `rtt_ms = None`. -/
theorem c2_success_rtt_invariant
    (domain qtype target system msg : String) (denv : DnsEnv) (ienv : IcmpEnv)
    (renv : RdnsEnv) (timeout : Rat) (max_hops queries : Nat) (tenv : Int → TrEnv)
    (qp : Bool) (elapsed t0 : Nat)
    (hdns : ∀ s e b, denv = .reply s e b → s ≤ e)
    (hicmp : ∀ v, ienv = .ping (.measured v) → 0 ≤ v) :
    ((run_probe target "dns" qp (.ok (dnsProbe domain qtype denv)) elapsed t0).1.status =
        "success" →
      ∃ v, (run_probe target "dns" qp (.ok (dnsProbe domain qtype denv)) elapsed
        t0).1.rtt_ms = some v ∧ 0 ≤ v) ∧
    ((run_probe target "icmp" qp (icmpProbe ienv) elapsed t0).1.status = "success" →
      ∃ v, (run_probe target "icmp" qp (icmpProbe ienv) elapsed t0).1.rtt_ms = some v ∧
        0 ≤ v) ∧
    (run_probe target "rdns" qp (.ok (rdnsProbe renv)) elapsed t0).1.rtt_ms = none ∧
    (run_probe target "traceroute" qp
      (.ok (tracerouteProbe timeout max_hops queries system target tenv)) elapsed
      t0).1.rtt_ms = none ∧
    (run_probe target "rdns" qp (.error msg) elapsed t0).1.rtt_ms = none ∧
    (run_probe target "traceroute" qp (.error msg) elapsed t0).1.rtt_ms = none := by
  refine ⟨?_, ?_, ?_, ?_, rfl, rfl⟩
  · match denv with
    | .reply s e b =>
        intro _
        have hse := hdns s e b rfl
        match b with
        | true =>
            refine ⟨(e - s) * 1000, rfl, ?_⟩
            have h1 : (0 : Rat) ≤ e - s := by linarith
            positivity
        | false => simp [run_probe, dnsProbe] at *
    | .timeoutE => simp [run_probe, dnsProbe]
    | .exc m => simp [run_probe, dnsProbe]
  · match ienv with
    | .ping .unreachable => simp [run_probe, icmpProbe]
    | .ping .noReply => simp [run_probe, icmpProbe]
    | .ping (.measured v) =>
        intro _
        exact ⟨v, rfl, hicmp v rfl⟩
    | .permissionDenied m => simp [run_probe, icmpProbe]
    | .exc m => simp [run_probe, icmpProbe]
  · match renv with
    | .answer s e p => rfl
    | .nxdomain => rfl
    | .timeoutE => rfl
    | .exc m => rfl
  · show (run_probe _ _ _ (.ok (tracerouteProbe _ _ _ _ _ _)) _ _).1.rtt_ms = none
    simp only [tracerouteProbe]
    match tenv (overall_timeout timeout max_hops queries) with
    | .completed so se code => rfl
    | .timedOut => rfl
    | .cmdNotFound => rfl
    | .exc m => rfl

/-- Witness for C2 at concrete inputs, hypotheses discharged there. -/
theorem c2_success_rtt_invariant_witness :
    ((run_probe "1.1.1.1" "dns" true
        (.ok (dnsProbe "google.com" "A" (.reply 0 1 true))) 1 0).1.status = "success" →
      ∃ v, (run_probe "1.1.1.1" "dns" true
        (.ok (dnsProbe "google.com" "A" (.reply 0 1 true))) 1 0).1.rtt_ms = some v ∧
        0 ≤ v) ∧
    ((run_probe "1.1.1.1" "icmp" true (icmpProbe (.ping (.measured 7))) 1 0).1.status =
        "success" →
      ∃ v, (run_probe "1.1.1.1" "icmp" true
        (icmpProbe (.ping (.measured 7))) 1 0).1.rtt_ms = some v ∧ 0 ≤ v) ∧
    (run_probe "1.1.1.1" "rdns" true (.ok (rdnsProbe .nxdomain)) 1 0).1.rtt_ms = none ∧
    (run_probe "1.1.1.1" "traceroute" true
      (.ok (tracerouteProbe 3 20 3 "Linux" "1.1.1.1" (fun _ => .timedOut))) 1
      0).1.rtt_ms = none ∧
    (run_probe "1.1.1.1" "rdns" true (.error "boom") 1 0).1.rtt_ms = none ∧
    (run_probe "1.1.1.1" "traceroute" true (.error "boom") 1 0).1.rtt_ms = none :=
  c2_success_rtt_invariant "google.com" "A" "1.1.1.1" "Linux" "boom"
    (.reply 0 1 true) (.ping (.measured 7)) .nxdomain 3 20 3 (fun _ => .timedOut)
    true 1 0
    (by intro s e b h; cases h; norm_num)
    (by intro v h; cases h; norm_num)

/-- Claim C7: for a completed traceroute subprocess (one that ran to completion
under the computed overall deadline `overall_timeout`), the probe status is
`success` exactly when `_parse_output` extracts at least one hop from the
subprocess output, `error` exactly when no hop line parses, and
`metadata.destination_reached` is true exactly when some parsed hop address
equals the target; when the subprocess is killed by the computed deadline, the
status is `timeout`. -/
theorem c7_traceroute_status_and_destination
    (timeout : Rat) (max_hops queries : Nat) (system target_ip : String)
    (env : Int → TrEnv) :
    (∀ so se code,
      env (overall_timeout timeout max_hops queries) = TrEnv.completed so se code →
      (((tracerouteProbe timeout max_hops queries system target_ip env).2.1 = "success" ↔
          parse_output (trOutput so se) system ≠ []) ∧
       ((tracerouteProbe timeout max_hops queries system target_ip env).2.1 = "error" ↔
          parse_output (trOutput so se) system = []) ∧
       ((tracerouteProbe timeout max_hops queries system target_ip
            env).2.2.lookup "destination_reached" = some (MetaValue.boolV true) ↔
          ∃ h ∈ parse_output (trOutput so se) system, h.ip = some target_ip))) ∧
    (env (overall_timeout timeout max_hops queries) = TrEnv.timedOut →
      (tracerouteProbe timeout max_hops queries system target_ip env).2.1 = "timeout") := by
  constructor
  · intro so se code hc
    simp only [tracerouteProbe, hc]
    refine ⟨?_, ?_, ?_⟩
    · match hh : parse_output (trOutput so se) system with
      | [] => simp
      | h :: hs => simp
    · match hh : parse_output (trOutput so se) system with
      | [] => simp
      | h :: hs => simp
    · show (List.lookup "destination_reached" _ = _) ↔ _
      have hlk :
          List.lookup "destination_reached"
            [("hops", MetaValue.hops (parse_output (trOutput so se) system)),
             ("destination_reached", MetaValue.boolV
               ((parse_output (trOutput so se) system).any
                 (fun h => h.ip == some target_ip))),
             ("exit_code", MetaValue.int code)] =
            some (MetaValue.boolV
              ((parse_output (trOutput so se) system).any
                (fun h => h.ip == some target_ip))) := rfl
      rw [hlk]
      simp [List.any_eq_true]
  · intro hc
    simp only [tracerouteProbe, hc]

/-- Witness for C7: a completed run with one parseable hop line that reaches the
target, and a run killed by the deadline. -/
theorem c7_traceroute_witness :
    (((tracerouteProbe 3 20 3 "Linux" "10.0.0.5"
        (fun _ => TrEnv.completed " 1  10.0.0.5" "" 0)).2.1 = "success" ↔
       parse_output (trOutput " 1  10.0.0.5" "") "Linux" ≠ []) ∧
     ((tracerouteProbe 3 20 3 "Linux" "10.0.0.5"
        (fun _ => TrEnv.completed " 1  10.0.0.5" "" 0)).2.1 = "error" ↔
       parse_output (trOutput " 1  10.0.0.5" "") "Linux" = []) ∧
     ((tracerouteProbe 3 20 3 "Linux" "10.0.0.5"
        (fun _ => TrEnv.completed " 1  10.0.0.5" "" 0)).2.2.lookup
          "destination_reached" = some (MetaValue.boolV true) ↔
       ∃ h ∈ parse_output (trOutput " 1  10.0.0.5" "") "Linux",
         h.ip = some "10.0.0.5")) ∧
    (tracerouteProbe 3 20 3 "Linux" "10.0.0.5" (fun _ => TrEnv.timedOut)).2.1 =
      "timeout" :=
  ⟨(c7_traceroute_status_and_destination 3 20 3 "Linux" "10.0.0.5"
      (fun _ => TrEnv.completed " 1  10.0.0.5" "" 0)).1 " 1  10.0.0.5" "" 0 rfl,
   (c7_traceroute_status_and_destination 3 20 3 "Linux" "10.0.0.5"
      (fun _ => TrEnv.timedOut)).2 rfl⟩

theorem sched_count_invariant (events : List SchedEvent) (running : List JobKey)
    (h : ∀ j, running.count j ≤ 1) :
    ∀ j, (events.foldl (schedStep 1) running).count j ≤ 1 := by
  induction events generalizing running with
  | nil => exact h
  | cons e es ih =>
      rw [List.foldl_cons]
      refine ih _ ?_
      intro j
      match e with
      | .trigger j' =>
          simp only [schedStep]
          by_cases hc : 1 ≤ running.count j'
          · rw [if_pos hc]; exact h j
          · rw [if_neg hc]
            rw [List.count_cons]
            have h0 : running.count j' = 0 := by omega
            simp only [beq_iff_eq]
            split
            · rename_i hEq
              subst hEq
              omega
            · have := h j
              omega
      | .finish j' =>
          simp only [schedStep]
          rw [List.count_erase]
          have := h j
          omega

/-- Claim C4: under the `job_defaults` configured in the source
(`max_instances = 1`), every reachable in-flight multiset of the modelled
scheduler has at most one running invocation per `(probe_kind, target)` Job, and
a trigger firing while that Job is running returns the state unchanged — the
tick is skipped, nothing is queued. -/
theorem c4_per_job_overlap_policy (events : List SchedEvent) (j : JobKey) :
    (schedRun job_defaults.max_instances events).count j ≤ 1 ∧
    (j ∈ schedRun job_defaults.max_instances events →
      schedStep job_defaults.max_instances
        (schedRun job_defaults.max_instances events) (.trigger j) =
        schedRun job_defaults.max_instances events) := by
  have hmax : job_defaults.max_instances = 1 := rfl
  constructor
  · rw [hmax]
    exact sched_count_invariant events [] (fun _ => by simp) j
  · intro hj
    have h1 : 1 ≤ (schedRun job_defaults.max_instances events).count j :=
      List.one_le_count_iff.mpr hj
    simp only [schedStep]
    rw [hmax] at h1 ⊢
    rw [if_pos h1]

/-- Witness for C4: a single trigger leaves the Job running; re-triggering it is
skipped. -/
theorem c4_per_job_overlap_policy_witness :
    (schedRun job_defaults.max_instances
        [SchedEvent.trigger ⟨"icmp", "10.0.0.1"⟩]).count ⟨"icmp", "10.0.0.1"⟩ ≤ 1 ∧
    schedStep job_defaults.max_instances
      (schedRun job_defaults.max_instances [SchedEvent.trigger ⟨"icmp", "10.0.0.1"⟩])
      (.trigger ⟨"icmp", "10.0.0.1"⟩) =
      schedRun job_defaults.max_instances [SchedEvent.trigger ⟨"icmp", "10.0.0.1"⟩] :=
  ⟨(c4_per_job_overlap_policy [SchedEvent.trigger ⟨"icmp", "10.0.0.1"⟩]
      ⟨"icmp", "10.0.0.1"⟩).1,
   (c4_per_job_overlap_policy [SchedEvent.trigger ⟨"icmp", "10.0.0.1"⟩]
      ⟨"icmp", "10.0.0.1"⟩).2 (by decide)⟩

theorem io_writer_process_drain (results : List ProbeResult)
    (extra : List (Option ProbeResult)) (st0 : WriterFiles) :
    io_writer_process (results.map some ++ none :: extra) st0 =
      (results.foldl writerStep st0, true) := by
  induction results generalizing st0 with
  | nil => rfl
  | cons r rs ih =>
      simp only [List.map_cons, List.cons_append, List.foldl_cons]
      exact ih (writerStep st0 r)

theorem writerStep_flushed (r : ProbeResult) (s1 s2 s3 : List String) :
    writerStep ⟨⟨s1, []⟩, ⟨s2, []⟩, ⟨s3, []⟩⟩ r =
      if r.probe_type = "rdns" then ⟨⟨s1, []⟩, ⟨s2 ++ [recordLine r], []⟩, ⟨s3, []⟩⟩
      else if r.probe_type = "traceroute" then
        ⟨⟨s1, []⟩, ⟨s2, []⟩, ⟨s3 ++ [recordLine r], []⟩⟩
      else ⟨⟨s1 ++ [recordLine r], []⟩, ⟨s2, []⟩, ⟨s3, []⟩⟩ := by
  by_cases h1 : r.probe_type = "rdns" <;> by_cases h2 : r.probe_type = "traceroute" <;>
    simp [writerStep, fwrite, fflush, recordLine, h1, h2]

theorem writer_foldl_stable (results : List ProbeResult) (s1 s2 s3 : List String) :
    results.foldl writerStep ⟨⟨s1, []⟩, ⟨s2, []⟩, ⟨s3, []⟩⟩ =
      ⟨⟨s1 ++ (results.filter isPrimary).map recordLine, []⟩,
       ⟨s2 ++ (results.filter (fun r => r.probe_type == "rdns")).map recordLine, []⟩,
       ⟨s3 ++ (results.filter (fun r => r.probe_type == "traceroute")).map recordLine,
         []⟩⟩ := by
  induction results generalizing s1 s2 s3 with
  | nil => simp
  | cons r rs ih =>
      rw [List.foldl_cons, writerStep_flushed]
      by_cases h1 : r.probe_type = "rdns"
      · have h2 : r.probe_type ≠ "traceroute" := by rw [h1]; decide
        simp only [if_pos h1]
        rw [ih]
        simp [List.filter_cons, isPrimary, h1, h2, List.append_assoc]
      · by_cases h2 : r.probe_type = "traceroute"
        · simp only [if_neg h1, if_pos h2]
          rw [ih]
          simp [List.filter_cons, isPrimary, h1, h2, List.append_assoc]
        · simp only [if_neg h1, if_neg h2]
          rw [ih]
          simp [List.filter_cons, isPrimary, h1, h2, List.append_assoc]

theorem filter_partition_three (results : List ProbeResult) :
    (results.filter isPrimary).length +
      (results.filter (fun r => r.probe_type == "rdns")).length +
      (results.filter (fun r => r.probe_type == "traceroute")).length =
      results.length := by
  induction results with
  | nil => rfl
  | cons r rs ih =>
      by_cases h1 : r.probe_type = "rdns"
      · have h2 : r.probe_type ≠ "traceroute" := by rw [h1]; decide
        simp [List.filter_cons, isPrimary, h1, h2]
        omega
      · by_cases h2 : r.probe_type = "traceroute" <;>
          · simp [List.filter_cons, isPrimary, h1, h2]
            omega

/-- Claim C3: with queue contents made of N result dicts followed by the `None`
sentinel (and anything after it), the `io_writer_process` loop persists exactly
one record per result, in FIFO arrival order within each of its output files,
terminates by the sentinel, and touches nothing that sits behind the sentinel. -/
theorem c3_writer_persists_each_result_then_stops_at_sentinel
    (results : List ProbeResult) (extra : List (Option ProbeResult))
    (s1 s2 s3 : List String) :
    (io_writer_process (results.map some ++ none :: extra)
        ⟨⟨s1, []⟩, ⟨s2, []⟩, ⟨s3, []⟩⟩).2 = true ∧
    (io_writer_process (results.map some ++ none :: extra)
        ⟨⟨s1, []⟩, ⟨s2, []⟩, ⟨s3, []⟩⟩).1 =
      results.foldl writerStep ⟨⟨s1, []⟩, ⟨s2, []⟩, ⟨s3, []⟩⟩ ∧
    (io_writer_process (results.map some ++ none :: extra)
        ⟨⟨s1, []⟩, ⟨s2, []⟩, ⟨s3, []⟩⟩).1.f.stable =
      s1 ++ (results.filter isPrimary).map recordLine ∧
    (io_writer_process (results.map some ++ none :: extra)
        ⟨⟨s1, []⟩, ⟨s2, []⟩, ⟨s3, []⟩⟩).1.frdns.stable =
      s2 ++ (results.filter (fun r => r.probe_type == "rdns")).map recordLine ∧
    (io_writer_process (results.map some ++ none :: extra)
        ⟨⟨s1, []⟩, ⟨s2, []⟩, ⟨s3, []⟩⟩).1.ftr.stable =
      s3 ++ (results.filter (fun r => r.probe_type == "traceroute")).map recordLine ∧
    (io_writer_process (results.map some ++ none :: extra)
          ⟨⟨s1, []⟩, ⟨s2, []⟩, ⟨s3, []⟩⟩).1.f.stable.length +
        (io_writer_process (results.map some ++ none :: extra)
          ⟨⟨s1, []⟩, ⟨s2, []⟩, ⟨s3, []⟩⟩).1.frdns.stable.length +
        (io_writer_process (results.map some ++ none :: extra)
          ⟨⟨s1, []⟩, ⟨s2, []⟩, ⟨s3, []⟩⟩).1.ftr.stable.length =
      s1.length + s2.length + s3.length + results.length := by
  rw [io_writer_process_drain, writer_foldl_stable]
  have hp := filter_partition_three results
  simp only [List.length_append, List.length_map]
  refine ⟨trivial, trivial, trivial, trivial, trivial, by omega⟩

/-- Claim C8: after every number of dequeued results, each rdns result has been
appended (as one JSON line) to the rdns auxiliary log, each traceroute result to
the traceroute auxiliary log, every other result to the primary log, and all
three files are fully flushed — nothing sits in a write buffer. -/
theorem c8_single_stream_routing_and_immediate_flush
    (results : List ProbeResult) (k : Nat) (s1 s2 s3 : List String) :
    ((results.take k).foldl writerStep ⟨⟨s1, []⟩, ⟨s2, []⟩, ⟨s3, []⟩⟩).f.stable =
        s1 ++ ((results.take k).filter isPrimary).map recordLine ∧
    ((results.take k).foldl writerStep ⟨⟨s1, []⟩, ⟨s2, []⟩, ⟨s3, []⟩⟩).frdns.stable =
        s2 ++ ((results.take k).filter (fun r => r.probe_type == "rdns")).map recordLine ∧
    ((results.take k).foldl writerStep ⟨⟨s1, []⟩, ⟨s2, []⟩, ⟨s3, []⟩⟩).ftr.stable =
        s3 ++ ((results.take k).filter
          (fun r => r.probe_type == "traceroute")).map recordLine ∧
    ((results.take k).foldl writerStep ⟨⟨s1, []⟩, ⟨s2, []⟩, ⟨s3, []⟩⟩).f.buffer = [] ∧
    ((results.take k).foldl writerStep ⟨⟨s1, []⟩, ⟨s2, []⟩, ⟨s3, []⟩⟩).frdns.buffer = [] ∧
    ((results.take k).foldl writerStep ⟨⟨s1, []⟩, ⟨s2, []⟩, ⟨s3, []⟩⟩).ftr.buffer = [] := by
  rw [writer_foldl_stable]
  exact ⟨rfl, rfl, rfl, rfl, rfl, rfl⟩

theorem lookup_map_stable (ip : String) (handles : List (String × FileState)) :
    (handles.map (fun kv => (kv.1, kv.2.stable))).lookup ip =
      (handles.lookup ip).map FileState.stable := by
  induction handles with
  | nil => rfl
  | cons kv rest ih =>
      simp only [List.map_cons, List.lookup]
      cases hb : ip == kv.1
      · simpa using ih
      · rfl

theorem lookup_none_keys (ip : String) (handles : List (String × FileState))
    (h : handles.lookup ip = none) : ∀ kv ∈ handles, kv.1 ≠ ip := by
  induction handles with
  | nil => simp
  | cons kv rest ih =>
      simp only [List.lookup] at h
      cases hb : (ip == kv.1)
      · rw [hb] at h
        intro kv' hkv'
        rcases List.mem_cons.mp hkv' with h1 | h1
        · subst h1
          intro hcon
          subst hcon
          simp at hb
        · exact ih h kv' h1
      · rw [hb] at h
        simp at h

theorem massStep_refines (handles : List (String × FileState)) (r : ProbeResult)
    (hbuf : ∀ kv ∈ handles, kv.2.buffer = []) :
    ((massStep handles r).map (fun kv => (kv.1, kv.2.stable)) =
      cohortWriterSpecStep (handles.map (fun kv => (kv.1, kv.2.stable))) r) ∧
    (∀ kv ∈ massStep handles r, kv.2.buffer = []) := by
  have hlk := lookup_map_stable r.target_ip handles
  by_cases hs : (handles.lookup r.target_ip).isSome
  · have hacc : ((handles.map (fun kv => (kv.1, kv.2.stable))).lookup
        r.target_ip).isSome := by
      rw [hlk]
      simpa using hs
    constructor
    · rw [cohortWriterSpecStep, if_pos hacc]
      rw [massStep, _get_handle, if_pos hs]
      rw [List.map_map, List.map_map]
      refine List.map_congr_left ?_
      intro kv hkv
      by_cases hip : kv.1 = r.target_ip
      · simp only [Function.comp_apply, if_pos hip]
        have : kv.2.buffer = [] := hbuf kv hkv
        simp [fflush, fwrite, this]
      · simp only [Function.comp_apply, if_neg hip]
    · intro kv hkv
      rw [massStep, _get_handle, if_pos hs] at hkv
      rcases List.mem_map.mp hkv with ⟨kv', hkv', hEq⟩
      by_cases hip : kv'.1 = r.target_ip
      · rw [if_pos hip] at hEq
        subst hEq
        rfl
      · rw [if_neg hip] at hEq
        subst hEq
        exact hbuf kv' hkv'
  · have hnone : handles.lookup r.target_ip = none := by
      cases hx : handles.lookup r.target_ip
      · rfl
      · rw [hx] at hs; simp at hs
    have hkeys := lookup_none_keys r.target_ip handles hnone
    have hacc : ¬ ((handles.map (fun kv => (kv.1, kv.2.stable))).lookup
        r.target_ip).isSome := by
      rw [hlk, hnone]
      simp
    have hstep : massStep handles r =
        handles ++ [(r.target_ip, ⟨[headerRow, massRow r], []⟩)] := by
      rw [massStep, _get_handle, if_neg hs]
      rw [List.map_append]
      have h1 : handles.map (fun kv =>
          if kv.1 = r.target_ip then (kv.1, fflush (fwrite (massRow r) kv.2)) else kv) =
          handles := by
        rw [← List.map_id handles]
        rw [List.map_map]
        refine List.map_congr_left ?_
        intro kv hkv
        simp [hkeys kv hkv]
      rw [h1]
      simp [fflush, fwrite]
    constructor
    · rw [cohortWriterSpecStep, if_neg hacc, hstep]
      simp
    · intro kv hkv
      rw [hstep] at hkv
      rcases List.mem_append.mp hkv with h1 | h1
      · exact hbuf kv h1
      · simp at h1
        subst h1
        rfl

theorem mass_foldl_refines (results : List ProbeResult)
    (handles : List (String × FileState))
    (hbuf : ∀ kv ∈ handles, kv.2.buffer = []) :
    ((results.foldl massStep handles).map (fun kv => (kv.1, kv.2.stable)) =
      results.foldl cohortWriterSpecStep (handles.map (fun kv => (kv.1, kv.2.stable)))) ∧
    (∀ kv ∈ results.foldl massStep handles, kv.2.buffer = []) := by
  induction results generalizing handles with
  | nil => exact ⟨rfl, hbuf⟩
  | cons r rs ih =>
      have hstep := massStep_refines handles r hbuf
      have hrec := ih (massStep handles r) hstep.2
      refine ⟨?_, hrec.2⟩
      rw [List.foldl_cons, List.foldl_cons, hrec.1, hstep.1]

theorem massStep_keys (handles : List (String × FileState)) (r : ProbeResult) :
    (massStep handles r).map Prod.fst =
      if (handles.lookup r.target_ip).isSome then handles.map Prod.fst
      else handles.map Prod.fst ++ [r.target_ip] := by
  by_cases hs : (handles.lookup r.target_ip).isSome
  · rw [if_pos hs, massStep, _get_handle, if_pos hs]
    rw [List.map_map]
    refine List.map_congr_left ?_
    intro kv hkv
    by_cases hip : kv.1 = r.target_ip <;> simp [hip]
  · rw [if_neg hs, massStep, _get_handle, if_neg hs]
    rw [List.map_map, List.map_append]
    have h1 : handles.map (Prod.fst ∘ fun kv =>
        if kv.1 = r.target_ip then (kv.1, fflush (fwrite (massRow r) kv.2)) else kv) =
        handles.map Prod.fst := by
      refine List.map_congr_left ?_
      intro kv hkv
      by_cases hip : kv.1 = r.target_ip <;> simp [hip]
    rw [h1]
    simp

theorem mass_foldl_keys_nodup (results : List ProbeResult)
    (handles : List (String × FileState))
    (h : (handles.map Prod.fst).Nodup) :
    ((results.foldl massStep handles).map Prod.fst).Nodup := by
  induction results generalizing handles with
  | nil => exact h
  | cons r rs ih =>
      rw [List.foldl_cons]
      refine ih _ ?_
      rw [massStep_keys]
      by_cases hs : (handles.lookup r.target_ip).isSome
      · rw [if_pos hs]; exact h
      · rw [if_neg hs]
        have hnone : handles.lookup r.target_ip = none := by
          cases hx : handles.lookup r.target_ip
          · rfl
          · rw [hx] at hs; simp at hs
        have hkeys := lookup_none_keys r.target_ip handles hnone
        have hnot : r.target_ip ∉ handles.map Prod.fst := by
          intro hmem
          rcases List.mem_map.mp hmem with ⟨kv, hkv, hEq⟩
          exact hkeys kv hkv hEq
        simp [List.nodup_append, h, hnot]

theorem io_writer_process_mass_drain (results : List ProbeResult)
    (extra : List (Option ProbeResult)) (handles : List (String × FileState)) :
    io_writer_process_mass (results.map some ++ none :: extra) handles =
      (results.foldl massStep handles, true) := by
  induction results generalizing handles with
  | nil => rfl
  | cons r rs ih =>
      simp only [List.map_cons, List.cons_append, List.foldl_cons]
      exact ih (massStep handles r)

/-- Claim C9: in cohort mode the writer loop, run on queue contents of results
followed by the sentinel, terminates at the sentinel and its per-target files
are exactly those of the claim reference `cohortWriterSpec`: one file per
distinct target, opened lazily on that target first result with the fixed
header line first, then one `massRow` row per result (timestamp, target, probe
kind, rtt empty when absent, status — metadata omitted), everything flushed and
with no two files for the same target. -/
theorem c9_cohort_writer_refines_spec (results : List ProbeResult)
    (extra : List (Option ProbeResult)) :
    (io_writer_process_mass (results.map some ++ none :: extra) []).2 = true ∧
    (io_writer_process_mass (results.map some ++ none :: extra) []).1.map
        (fun kv => (kv.1, kv.2.stable)) = cohortWriterSpec results ∧
    (io_writer_process_mass (results.map some ++ none :: extra) []).1.all
        (fun kv => kv.2.buffer.isEmpty) = true ∧
    ((io_writer_process_mass (results.map some ++ none :: extra) []).1.map
        Prod.fst).Nodup := by
  rw [io_writer_process_mass_drain]
  have href := mass_foldl_refines results [] (by simp)
  refine ⟨rfl, href.1, ?_, mass_foldl_keys_nodup results [] (by simp)⟩
  rw [List.all_eq_true]
  intro kv hkv
  have := href.2 kv hkv
  simp [this]

/-- Claim C5 counterexample: the recorded timestamp is taken by
`datetime.utcnow()` only after `self.probe()` has returned.  With the probe
started at clock 0 and consuming 5 clock units, the recorded timestamp is 5 —
the instant after the probe — and not 0, the probe start instant the claim
asserts. -/
theorem c5_counterexample :
    (run_probe "10.0.0.1" "icmp" true (.ok (some 1, "success", [])) 5 0).1.timestamp = 5 ∧
    (run_probe "10.0.0.1" "icmp" true (.ok (some 1, "success", [])) 5 0).1.timestamp ≠ 0 := by
  decide

/-- Claim C5, amended: the Probe Runner records the wall-clock timestamp
immediately after the Probe completes (on both the normal and the exception
path), not at probe start. -/
theorem c5_amended_timestamp_after_probe (target ptype : String) (qp : Bool)
    (outcome : Except String ProbeOutcome) (elapsed t0 : Nat) :
    (run_probe target ptype qp outcome elapsed t0).1.timestamp = t0 + elapsed := by
  match outcome with
  | .ok (rtt, status, metadata) => rfl
  | .error msg => rfl

/-- Claim C6 counterexample: on NXDOMAIN the metadata dict built by
`RdnsCollector.probe` has no key `ptr_names` at all — the empty PTR list is
stored under the key `ptr_name` — so the claimed field `ptr_names = []` is
absent. -/
theorem c6_counterexample :
    (rdnsProbe .nxdomain).2.2.lookup "ptr_names" ≠ some (MetaValue.strList []) ∧
    (rdnsProbe .nxdomain).2.2.lookup "ptr_names" = none := by
  decide

/-- Claim C6, amended: when the PTR lookup hits NXDOMAIN, `RdnsCollector.probe`
returns rtt `None` and status `success` with the metadata field `ptr_name`
(not `ptr_names`) equal to the empty list; the same holds of the result dict
`run_probe` builds from that outcome. -/
theorem c6_amended_nxdomain_success_empty_ptr_name :
    (rdnsProbe .nxdomain).1 = none ∧
    (rdnsProbe .nxdomain).2.1 = "success" ∧
    (rdnsProbe .nxdomain).2.2.lookup "ptr_name" = some (MetaValue.strList []) ∧
    (∀ (target : String) (qp : Bool) (elapsed t0 : Nat),
      (run_probe target "rdns" qp (.ok (rdnsProbe .nxdomain)) elapsed t0).1.rtt_ms = none ∧
      (run_probe target "rdns" qp (.ok (rdnsProbe .nxdomain)) elapsed t0).1.status = "success" ∧
      (run_probe target "rdns" qp
        (.ok (rdnsProbe .nxdomain)) elapsed t0).1.metadata.lookup "ptr_name" =
        some (MetaValue.strList [])) := by
  refine ⟨rfl, rfl, by decide, fun target qp elapsed t0 => ⟨rfl, rfl, by rfl⟩⟩


theorem mass_targets_step_equiv (raw : String) (current : Option (List Char))
    (inSat : Bool) (g s : List (List Char))
    (h : inSat = true ↔ current = some ("satellite".toList)) :
    (massTargetsStep (current, g, s) raw).2.1 =
      (massTargetsAmendedStep (inSat, g, s) raw).2.1 ∧
    (massTargetsStep (current, g, s) raw).2.2 =
      (massTargetsAmendedStep (inSat, g, s) raw).2.2 ∧
    ((massTargetsAmendedStep (inSat, g, s) raw).1 = true ↔
      (massTargetsStep (current, g, s) raw).1 = some ("satellite".toList)) := by
  simp only [massTargetsStep, massTargetsAmendedStep]
  by_cases c1 : (pyStrip raw.toList).isEmpty = true
  · rw [if_pos c1, if_pos c1]
    exact ⟨rfl, rfl, h⟩
  · rw [if_neg c1, if_neg c1]
    by_cases c2 : (pyStrip raw.toList).head? = some '#'
    · rw [if_pos c2, if_pos c2]
      exact ⟨rfl, rfl, h⟩
    · rw [if_neg c2, if_neg c2]
      by_cases c3 : (pyStrip raw.toList).head? = some '[' ∧
          (pyStrip raw.toList).getLast? = some ']'
      · rw [if_pos c3, if_pos c3]
        by_cases c5 : (pyStrip ((pyStrip raw.toList).drop 1).dropLast).map Char.toLower =
            "satellite".toList
        · rw [if_pos (Or.inr c5), if_pos c5]
          exact ⟨rfl, rfl, Iff.intro (fun _ => congrArg some c5) (fun _ => rfl)⟩
        · by_cases cg : (pyStrip ((pyStrip raw.toList).drop 1).dropLast).map Char.toLower =
              "ground".toList
          · rw [if_pos (Or.inl cg), if_neg c5]
            refine ⟨rfl, rfl, Iff.intro (fun hF => Bool.noConfusion hF) (fun hF => ?_)⟩
            have hgs : ("ground".toList : List Char) = "satellite".toList := by
              rw [← cg]
              exact Option.some.inj hF
            exact absurd hgs (by decide)
          · have c4 : ¬((pyStrip ((pyStrip raw.toList).drop 1).dropLast).map Char.toLower =
                "ground".toList ∨
              (pyStrip ((pyStrip raw.toList).drop 1).dropLast).map Char.toLower =
                "satellite".toList) := by
              intro hor
              rcases hor with h1 | h1
              · exact cg h1
              · exact c5 h1
            rw [if_neg c4, if_neg c5]
            exact ⟨rfl, rfl, Iff.intro (fun hF => Bool.noConfusion hF)
              (fun hF => Option.noConfusion hF)⟩
      · rw [if_neg c3, if_neg c3]
        by_cases hb : inSat = true
        · have hcur : current = some ("satellite".toList) := h.mp hb
          rw [if_pos hb, hcur,
            if_neg (show ¬(some ("satellite".toList) = some ("ground".toList)) by decide),
            if_pos rfl]
          exact ⟨rfl, rfl, Iff.intro (fun _ => rfl) (fun _ => hb)⟩
        · have hcur : current ≠ some ("satellite".toList) := fun hc => hb (h.mpr hc)
          rw [if_neg hb]
          by_cases hg : current = some ("ground".toList)
          · rw [if_pos hg]
            exact ⟨rfl, rfl, Iff.intro (fun hF => absurd hF hb) (fun hc => absurd hc hcur)⟩
          · rw [if_neg hg, if_neg hcur]
            exact ⟨rfl, rfl, Iff.intro (fun hF => absurd hF hb) (fun hc => absurd hc hcur)⟩

theorem mass_targets_equiv_aux (lines : List String) (current : Option (List Char))
    (inSat : Bool) (g s : List (List Char))
    (h : inSat = true ↔ current = some ("satellite".toList)) :
    (lines.foldl massTargetsStep (current, g, s)).2 =
      (lines.foldl massTargetsAmendedStep (inSat, g, s)).2 := by
  induction lines generalizing current inSat g s with
  | nil => rfl
  | cons raw rest ih =>
      rw [List.foldl_cons, List.foldl_cons]
      obtain ⟨e1, e2, e3⟩ := mass_targets_step_equiv raw current inSat g s h
      rw [show massTargetsStep (current, g, s) raw =
        ((massTargetsStep (current, g, s) raw).1,
         (massTargetsStep (current, g, s) raw).2.1,
         (massTargetsStep (current, g, s) raw).2.2) from rfl]
      rw [show massTargetsAmendedStep (inSat, g, s) raw =
        ((massTargetsAmendedStep (inSat, g, s) raw).1,
         (massTargetsAmendedStep (inSat, g, s) raw).2.1,
         (massTargetsAmendedStep (inSat, g, s) raw).2.2) from rfl]
      rw [e1, e2]
      exact ih _ _ _ _ e3

/-- Claim C10 counterexample: in the file `[starlink]` followed by `1.2.3.4`,
the address line sits under a section header that is neither `[ground]` nor
`[satellite]`, yet it is NOT discarded — `_parse_mass_targets` places it in the
ground cohort (the address dispatch falls through to the default
`ground.append`). -/
theorem c10_counterexample :
    ("1.2.3.4".toList ∈ (_parse_mass_targets ["[starlink]", "1.2.3.4"]).1) ∧
    (_parse_mass_targets ["[starlink]", "1.2.3.4"]).1 = ["1.2.3.4".toList] ∧
    (_parse_mass_targets ["[starlink]", "1.2.3.4"]).2 = [] := by decide

/-- Claim C10, amended: address lines before any section header default to the
ground cohort, and address lines under a section header other than `[ground]`
or `[satellite]` are also assigned to the ground cohort (an unknown header
resets the parser to its default), not discarded; only lines under
`[satellite]` reach the satellite cohort.  Stated as: the source parser
coincides with the reference `massTargetsAmended`. -/
theorem c10_amended_unknown_sections_default_to_ground (lines : List String) :
    _parse_mass_targets lines = massTargetsAmended lines := by
  have hEq := mass_targets_equiv_aux lines none false [] [] (by simp)
  show ((lines.foldl massTargetsStep (none, [], [])).2.1,
        (lines.foldl massTargetsStep (none, [], [])).2.2) =
      ((lines.foldl massTargetsAmendedStep (false, [], [])).2.1,
       (lines.foldl massTargetsAmendedStep (false, [], [])).2.2)
  rw [hEq]
